import Mathlib

/-!
Verification of the pluggedin-observability instrumentation modules
(`src/instrumentation/python-metrics.py` and
`src/instrumentation/python-logging.py`) against their specification.

The Python middlewares and helpers are shallowly embedded: header maps are
association lists, Python exceptions are an explicit error type, the passage
of time is represented by integer timestamps supplied as parameters at the
two points where the code reads the clock, and each middleware is a pure
function from its inputs to the trace of instrumentation events it performs
together with its outcome (a response, or a propagated exception).
-/

namespace Observability

/-- Header maps: association lists of lowercase header name to value,
mirroring the case-insensitive header objects of Starlette (keys are stored
normalized to lowercase). -/
abbrev Headers := List (String × String)

/-- Model of `headers.get(k)`: first value bound to key `k`, if any. -/
def hget (h : Headers) (k : String) : Option String :=
  match h with
  | [] => none
  | p :: rest => if p.1 = k then some p.2 else hget rest k

/-- Model of `headers[k] = v`: replace any binding of `k` by `v` (Starlette
`MutableHeaders.__setitem__` replaces case-insensitively). -/
def hset (h : Headers) (k v : String) : Headers :=
  (List.filter (fun p => ¬ p.1 = k) h) ++ [(k, v)]

/-- Whitespace characters stripped by Python `int()` before parsing. -/
def isPySpace (c : Char) : Bool :=
  c = ' ' ∨ c = '\t' ∨ c = '\n' ∨ c = '\r' ∨ c = '\x0b' ∨ c = '\x0c'

/-- Strip leading and trailing whitespace from a character list. -/
def stripSpaces (l : List Char) : List Char :=
  ((l.dropWhile isPySpace).reverse.dropWhile isPySpace).reverse

/-- Value of a decimal digit character. -/
def digitVal (c : Char) : Nat := c.toNat - 48

/-- Natural number denoted by a list of decimal digit characters. -/
def digitsVal (l : List Char) : Nat :=
  l.foldl (fun acc c => 10 * acc + digitVal c) 0

/-- Model of applying CPython `int()` to a string: surrounding whitespace is
stripped, an optional single sign is allowed, and the remainder must be a
nonempty run of decimal digits; otherwise `int()` raises `ValueError`,
modelled as `none`. -/
def pyInt (s : String) : Option Int :=
  let l := stripSpaces s.toList
  match l with
  | [] => none
  | c :: rest =>
    if c = '+' then
      if rest ≠ [] ∧ rest.all Char.isDigit then some (digitsVal rest) else none
    else if c = '-' then
      if rest ≠ [] ∧ rest.all Char.isDigit then some (-(digitsVal rest : Int)) else none
    else
      if l.all Char.isDigit then some (digitsVal l) else none

/-- A Python exception: its type name and message, as used by
`type(e).__name__` and `str(e)` in the logging helpers. -/
structure PyExn where
  ty : String
  msg : String
deriving Repr, DecidableEq

/-- An inbound HTTP request as the middlewares see it: `request.method`,
`request.url.path` (the raw, interpolated path), the route template the
framework matched the request to (available from the framework but unused
by the code), and the request headers. -/
structure Request where
  method : String
  path : String
  routeTemplate : String
  headers : Headers
deriving Repr, DecidableEq

/-- An HTTP response: `response.status_code` and `response.headers`. -/
structure Response where
  statusCode : Nat
  headers : Headers
deriving Repr, DecidableEq

/-- A downstream handler (`call_next`): produces a response or raises. -/
abbrev Handler := Request → Except PyExn Response

/-- Constant `SERVICE_NAME`: `os.getenv("SERVICE_NAME", "pluggedin-service")`. The
environment variable is resolved once at process start; the model keeps the
default. -/
def SERVICE_NAME : String := "pluggedin-service"

/-- One metric-registry operation performed by `MetricsMiddleware.dispatch`,
in program order: the active-requests gauge increment/decrement (labeled by
service), the request-size observation (labeled method/endpoint/service),
the requests-total increment and the duration and response-size
observations (labeled method/endpoint/status_code/service). -/
inductive MEvent where
  | gaugeInc (service : String)
  | gaugeDec (service : String)
  | reqSizeObs (method endpoint service : String) (v : Int)
  | reqTotalInc (method endpoint : String) (statusCode : Nat) (service : String)
  | durationObs (method endpoint : String) (statusCode : Nat) (service : String) (d : Int)
  | respSizeObs (method endpoint : String) (statusCode : Nat) (service : String) (v : Int)
deriving Repr, DecidableEq

/-- Model of `int(headers.get("content-length", 0))`: when the header is absent the
default `0` is converted (`int(0) = 0`); when present, `int()` parses the
string and may raise. -/
def contentLengthValue (h : Headers) : Option Int :=
  match hget h "content-length" with
  | none => some 0
  | some s => pyInt s

/-- Shallow embedding of `MetricsMiddleware.dispatch`
(`python-metrics.py` lines 198-248). `t0` is the value `time.time()`
returns at entry and `t1` its value after downstream returns. The result is
the list of metric operations performed, in order, paired with the
dispatch outcome: the response, or the exception that propagated (either a
`ValueError` from `int()` on a malformed content-length, or the downstream
handler's own exception). The source has no try/finally around
`call_next`, so on either exception path the trace ends where the
exception was raised. -/
def metricsDispatch (req : Request) (next : Handler) (t0 t1 : Int) :
    List MEvent × Except PyExn Response :=
  let evInc : List MEvent := [MEvent.gaugeInc SERVICE_NAME]
  match contentLengthValue req.headers with
  | none => (evInc, Except.error ⟨"ValueError", "invalid literal for int() with base 10"⟩)
  | some requestSize =>
    let evReq :=
      if requestSize > 0 then
        evInc ++ [MEvent.reqSizeObs req.method req.path SERVICE_NAME requestSize]
      else evInc
    match next req with
    | Except.error e => (evReq, Except.error e)
    | Except.ok response =>
      let duration := t1 - t0
      match contentLengthValue response.headers with
      | none => (evReq, Except.error ⟨"ValueError", "invalid literal for int() with base 10"⟩)
      | some responseSize =>
        let evRec := evReq ++
          [MEvent.reqTotalInc req.method req.path response.statusCode SERVICE_NAME,
           MEvent.durationObs req.method req.path response.statusCode SERVICE_NAME duration]
        let evResp :=
          if responseSize > 0 then
            evRec ++ [MEvent.respSizeObs req.method req.path response.statusCode SERVICE_NAME responseSize]
          else evRec
        (evResp ++ [MEvent.gaugeDec SERVICE_NAME], Except.ok response)

/-- Net effect of a trace of metric operations on the active-requests gauge
for a given service label: each increment adds one, each decrement removes
one. -/
def gaugeDelta (service : String) (evs : List MEvent) : Int :=
  evs.foldl
    (fun acc e =>
      match e with
      | MEvent.gaugeInc s => if s = service then acc + 1 else acc
      | MEvent.gaugeDec s => if s = service then acc - 1 else acc
      | _ => acc)
    0

/-! ## Structured logging (`python-logging.py`) -/

/-- Constant `ENVIRONMENT`: `os.getenv("ENVIRONMENT", "production")` (default kept,
so the JSON production formatter is selected). -/
def ENVIRONMENT : String := "production"

/-- Constant `APP_VERSION`: `os.getenv("APP_VERSION", "1.0.0")`. -/
def APP_VERSION : String := "1.0.0"

/-- Python `logging` severity levels used by the module. -/
inductive Level where
  | debug | info | warning | error | critical
deriving Repr, DecidableEq

/-- One emitted log record, projected to the data the middleware and the
helper decorators put into it: the severity, the message, the trace token
bound in `trace_id_var` at emission time, and the `duration_ms`,
`status`, `status_code`, `error` and `error_type` entries of the `extra`
mapping when the call site supplies them. -/
structure LogRec where
  level : Level
  message : String
  traceCtx : Option String
  durationMs : Option Int := none
  status : Option String := none
  statusCode : Option Nat := none
  errMsg : Option String := none
  errType : Option String := none
deriving Repr, DecidableEq

/-- Severity of the completion log, from the response status code
(`python-logging.py` lines 180-185). -/
def logLevelFor (statusCode : Nat) : Level :=
  if statusCode ≥ 500 then Level.error
  else if statusCode ≥ 400 then Level.warning
  else Level.info

/-- The trace token the middleware binds:
`request.headers.get("x-trace-id") or generate_trace_id()`. A missing
header yields Python `None` and an empty header value is falsy, so both
fall through to the freshly generated token; `freshId` stands for the
`str(uuid.uuid4())` result. -/
def chooseTraceId (h : Headers) (freshId : String) : String :=
  match hget h "x-trace-id" with
  | none => freshId
  | some v => if v = "" then freshId else v

/-- Shallow embedding of `LoggingMiddleware.dispatch`
(`python-logging.py` lines 154-202). `freshId` is the token
`generate_trace_id()` would return, `t0` and `t1` the two `time.time()`
readings. Returns the log records emitted, in order, and the outcome: the
response with the `X-Trace-ID` header attached, or the downstream
exception (propagated before the completion log and header attachment). -/
def loggingDispatch (req : Request) (next : Handler) (freshId : String) (t0 t1 : Int) :
    List LogRec × Except PyExn Response :=
  let tid := chooseTraceId req.headers freshId
  let incoming : LogRec :=
    { level := Level.info, message := "Incoming request", traceCtx := some tid }
  match next req with
  | Except.error e => ([incoming], Except.error e)
  | Except.ok response =>
    let durationMs := (t1 - t0) * 1000
    let completed : LogRec :=
      { level := logLevelFor response.statusCode, message := "Request completed",
        traceCtx := some tid, durationMs := some durationMs,
        statusCode := some response.statusCode }
    ([incoming, completed],
     Except.ok { response with headers := hset response.headers "x-trace-id" tid })

/-! ## JSON formatter (`CustomJsonFormatter.add_fields`) -/

/-- The metadata of a `logging.LogRecord` that the formatter reads:
`levelname`, `name`, `filename`, `lineno`, `funcName`, the rendered
message, and the `formatTime` output. -/
structure RecordInfo where
  levelname : String
  name : String
  filename : String
  lineno : Nat
  funcName : String
  message : String
  timestamp : String
deriving Repr, DecidableEq

/-- Python dict assignment on an association list with unique keys:
overwrite in place if the key is present, else append (dicts preserve
insertion order and keep the original position on overwrite). -/
def upsert (l : List (String × String)) (k v : String) : List (String × String) :=
  match l with
  | [] => [(k, v)]
  | p :: rest => if p.1 = k then (k, v) :: rest else p :: upsert rest k v

/-- The fields named in the formatter format string
`"%(timestamp)s %(level)s %(service)s %(message)s"`; `python-json-logger`
seeds the record with them and skips caller extras that collide with
them. -/
def requiredFields : List String := ["timestamp", "level", "service", "message"]

/-- Model of `jsonlogger.JsonFormatter.add_fields` (the `super().add_fields` call):
the required fields are seeded from the record (only `message` exists on
the record at that point; the others are seeded empty and overwritten
below), then caller-supplied `extra` entries are merged in, skipping
reserved names. -/
def baseAddFields (rec : RecordInfo) (callerFields : List (String × String)) :
    List (String × String) :=
  let init := [("timestamp", ""), ("level", ""), ("service", ""), ("message", rec.message)]
  callerFields.foldl
    (fun acc p => if requiredFields.contains p.1 then acc else upsert acc p.1 p.2)
    init

/-- Shallow embedding of `CustomJsonFormatter.add_fields`
(`python-logging.py` lines 52-75): after the base merge, the service
metadata, trace token (only when the bound value is truthy), level and
source-location keys are written, in source order, overwriting any
caller-supplied values. `traceCtx` is `trace_id_var.get()`. -/
def addFields (rec : RecordInfo) (traceCtx : Option String)
    (callerFields : List (String × String)) : List (String × String) :=
  let r0 := baseAddFields rec callerFields
  let r1 := upsert r0 "timestamp" rec.timestamp
  let r2 := upsert r1 "service" SERVICE_NAME
  let r3 := upsert r2 "environment" ENVIRONMENT
  let r4 := upsert r3 "version" APP_VERSION
  let r5 :=
    match traceCtx with
    | some t => if t = "" then r4 else upsert r4 "trace_id" t
    | none => r4
  let r6 := upsert r5 "level" rec.levelname
  let r7 := upsert r6 "logger" rec.name
  let r8 := upsert r7 "file" rec.filename
  let r9 := upsert r8 "line" (toString rec.lineno)
  upsert r9 "function" rec.funcName

/-- Key membership in a formatted record. -/
def hasKey (l : List (String × String)) (k : String) : Bool :=
  (hget l k).isSome

/-- The reserved keys of the production log-record schema. -/
def reservedKeys : List String :=
  ["timestamp", "level", "service", "environment", "version",
   "logger", "file", "line", "function", "message"]

/-! ## Generic instrumentation helpers -/

/-- One observation recorded into the metric registry by a helper. The
logging module helpers (`log_execution`, logging `Timer`) touch no metric,
so their traces of this type are empty; the type exists so that absence is
part of their observable behavior. -/
structure MetricObs where
  metricName : String
  labelValues : List (String × String)
  value : Int
deriving Repr, DecidableEq

/-- Shallow embedding of the `log_execution` decorator wrapper
(`python-logging.py` lines 209-297; the sync and async wrappers are
textually identical up to `await`). `work` is the wrapped function
applied to its arguments, `ctx` the bound trace token, `t0`/`t1` the two
clock readings. Returns the log records emitted, the metric observations
recorded (the decorator performs none), and the outcome: the wrapped
result, or the re-raised original exception. -/
def logExecution {α : Type} (operation : String) (work : Unit → Except PyExn α)
    (ctx : Option String) (t0 t1 : Int) :
    List LogRec × List MetricObs × Except PyExn α :=
  let startRec : LogRec :=
    { level := Level.debug, message := "Starting " ++ operation, traceCtx := ctx }
  match work () with
  | Except.ok r =>
    let completedRec : LogRec :=
      { level := Level.info, message := "Completed " ++ operation, traceCtx := ctx,
        durationMs := some ((t1 - t0) * 1000), status := some "success" }
    ([startRec, completedRec], [], Except.ok r)
  | Except.error e =>
    let failedRec : LogRec :=
      { level := Level.error, message := "Failed " ++ operation, traceCtx := ctx,
        durationMs := some ((t1 - t0) * 1000), status := some "error",
        errMsg := some e.msg, errType := some e.ty }
    ([startRec, failedRec], [], Except.error e)

/-- Shallow embedding of a `with Timer(operation, **context):` block around
`work` (`python-logging.py` lines 304-346): `__enter__` records the start
time and emits the debug log, `__exit__` emits the completion or failure
log and, returning `None`, lets the exception propagate. Like
`log_execution`, the logging `Timer` records no metric observation. -/
def timerScope {α : Type} (operation : String) (work : Unit → Except PyExn α)
    (ctx : Option String) (t0 t1 : Int) :
    List LogRec × List MetricObs × Except PyExn α :=
  let startRec : LogRec :=
    { level := Level.debug, message := "Starting " ++ operation, traceCtx := ctx }
  match work () with
  | Except.ok r =>
    let completedRec : LogRec :=
      { level := Level.info, message := "Completed " ++ operation, traceCtx := ctx,
        durationMs := some ((t1 - t0) * 1000), status := some "success" }
    ([startRec, completedRec], [], Except.ok r)
  | Except.error e =>
    let failedRec : LogRec :=
      { level := Level.error, message := "Failed " ++ operation, traceCtx := ctx,
        durationMs := some ((t1 - t0) * 1000), status := some "error",
        errMsg := some e.msg, errType := some e.ty }
    ([startRec, failedRec], [], Except.error e)

/-! ## Counter accumulation under concurrency -/

/-- Modelled from the spec: the accumulation step of a counter series such
as `http_requests_total` lives in the `prometheus_client` library, outside
this repository; per the spec (§4.3, §5) each observation is an atomic
(lock-protected) read-modify-write, so one `inc(delta)` is a single step
adding `delta` to the series value. -/
def counterInc (v : Nat) (delta : Nat) : Nat := v + delta

/-- Running a sequence of atomic increments against a counter value. -/
def runCounterOps (v : Nat) (ops : List Nat) : Nat := ops.foldl counterInc v

/-- Relation `Interleaving xs ys zs`: `zs` is one possible cooperative scheduling of
the operation sequences `xs` and `ys` of two concurrently executing
requests — an order-preserving merge, with each element one atomic step. -/
inductive Interleaving : List Nat → List Nat → List Nat → Prop where
  | nil : Interleaving [] [] []
  | left {xs ys zs a} : Interleaving xs ys zs → Interleaving (a :: xs) ys (a :: zs)
  | right {xs ys zs a} : Interleaving xs ys zs → Interleaving xs (a :: ys) (a :: zs)

/-! ## Association-list lemmas -/

theorem hget_upsert_self (l : List (String × String)) (k v : String) :
    hget (upsert l k v) k = some v := by
  induction l with
  | nil => simp [upsert, hget]
  | cons p rest ih =>
    by_cases hp : p.1 = k
    · simp [upsert, hp, hget]
    · simp [upsert, hp, hget, ih]

theorem hget_upsert_ne (l : List (String × String)) (k v k2 : String) (h : k2 ≠ k) :
    hget (upsert l k v) k2 = hget l k2 := by
  have hk : ¬ k = k2 := Ne.symm h
  induction l with
  | nil => simp [upsert, hget, hk]
  | cons p rest ih =>
    by_cases hp : p.1 = k
    · simp [upsert, hp, hget, hk]
    · simp only [upsert, if_neg hp, hget]
      by_cases hp2 : p.1 = k2
      · simp [hp2]
      · simp [hp2, ih]

theorem hasKey_upsert_of_hasKey (l : List (String × String)) (k v k2 : String)
    (h : hasKey l k2 = true) : hasKey (upsert l k v) k2 = true := by
  by_cases hk : k2 = k
  · subst hk; simp [hasKey, hget_upsert_self]
  · simpa [hasKey, hget_upsert_ne l k v k2 hk] using h

theorem hget_append_of_nokey (l1 l2 : List (String × String)) (k : String)
    (h : ∀ p ∈ l1, p.1 ≠ k) : hget (l1 ++ l2) k = hget l2 k := by
  induction l1 with
  | nil => rfl
  | cons p rest ih =>
    have hp : ¬ p.1 = k := h p (by simp)
    simpa [hget, hp] using ih (fun q hq => h q (by simp [hq]))

theorem hget_hset_self (h : Headers) (k v : String) : hget (hset h k v) k = some v := by
  have hf : ∀ p ∈ List.filter (fun p => ¬ p.1 = k) h, p.1 ≠ k := by
    intro p hp
    have := List.of_mem_filter hp
    simpa using this
  simpa [hset, hget] using hget_append_of_nokey _ [(k, v)] k hf

/-! ## Counter accumulation lemmas -/

theorem runCounterOps_eq_add_sum (v : Nat) (ops : List Nat) :
    runCounterOps v ops = v + ops.sum := by
  induction ops generalizing v with
  | nil => simp [runCounterOps]
  | cons a rest ih =>
    have : runCounterOps v (a :: rest) = runCounterOps (v + a) rest := rfl
    rw [this, ih]
    simp [List.sum_cons]
    omega

theorem Interleaving.sum_eq {xs ys zs : List Nat} (h : Interleaving xs ys zs) :
    zs.sum = xs.sum + ys.sum := by
  induction h with
  | nil => simp
  | left _ ih => simp [List.sum_cons, ih]; omega
  | right _ ih => simp [List.sum_cons, ih]; omega

/-! ## Claims about the metrics middleware -/

/-- C1 (code bug): `MetricsMiddleware.dispatch` has no try/finally around
`call_next`, so when the downstream handler raises, the exception
propagates before the `active_requests.dec()` at the end of `dispatch` and
the active-requests gauge is left one above its pre-request value instead
of being restored. Concrete failing run: a `GET /boom` request whose
handler raises `RuntimeError`. -/
theorem active_requests_gauge_leaks_on_downstream_exception :
    gaugeDelta SERVICE_NAME
        (metricsDispatch
          { method := "GET", path := "/boom", routeTemplate := "/boom", headers := [] }
          (fun _ => Except.error ⟨"RuntimeError", "boom"⟩) 0 1).1 = 1 ∧
    (metricsDispatch
      { method := "GET", path := "/boom", routeTemplate := "/boom", headers := [] }
      (fun _ => Except.error ⟨"RuntimeError", "boom"⟩) 0 1).2 =
      Except.error ⟨"RuntimeError", "boom"⟩ := by
  constructor <;> rfl

/-- C4 (code bug): the endpoint label on the recorded series is
`request.url.path`, the raw interpolated path, not the matched route
template. Concrete failing run: `GET /api/users/123` matched by the route
template `/api/users/\x7bid\x7d` is labeled `endpoint="/api/users/123"`. -/
theorem endpoint_label_is_raw_path_not_route_template :
    MEvent.reqTotalInc "GET" "/api/users/123" 200 SERVICE_NAME ∈
        (metricsDispatch
          { method := "GET", path := "/api/users/123",
            routeTemplate := "/api/users/\x7bid\x7d", headers := [] }
          (fun _ => Except.ok { statusCode := 200, headers := [] }) 0 1).1 ∧
    "/api/users/123" ≠ "/api/users/\x7bid\x7d" := by
  constructor
  · simp [metricsDispatch, contentLengthValue, hget, SERVICE_NAME]
  · decide

/-- C5 (code bug): `int(request.headers.get("content-length", 0))` is not
guarded, so a present but non-numeric content-length header makes the
metrics middleware itself raise `ValueError` before the downstream handler
runs, turning a request the handler would answer successfully into a
failure. Concrete failing run: content-length `"abc"` with a handler that
returns 200. -/
theorem malformed_content_length_raises_in_middleware :
    ((fun _ => Except.ok { statusCode := 200, headers := [] } : Handler)
        { method := "GET", path := "/ok", routeTemplate := "/ok",
          headers := [("content-length", "abc")] } =
      Except.ok { statusCode := 200, headers := [] }) ∧
    (metricsDispatch
      { method := "GET", path := "/ok", routeTemplate := "/ok",
        headers := [("content-length", "abc")] }
      (fun _ => Except.ok { statusCode := 200, headers := [] }) 0 1).2 =
      Except.error ⟨"ValueError", "invalid literal for int() with base 10"⟩ := by
  constructor <;> rfl

/-- C3: a counter series value after any cooperative interleaving of the
atomic increments of two concurrently executing requests equals its prior
value plus the sum of all increments — no update is lost; in particular,
`k` unit increments interleaved with `m` unit increments add exactly
`k + m`. -/
theorem counter_no_lost_updates (v0 : Nat) (xs ys zs : List Nat) (k m : Nat)
    (h : Interleaving xs ys zs) :
    runCounterOps v0 zs = v0 + (xs.sum + ys.sum) ∧
    (xs = List.replicate k 1 → ys = List.replicate m 1 →
      runCounterOps v0 zs = v0 + (k + m)) := by
  have hsum := runCounterOps_eq_add_sum v0 zs
  have hz := h.sum_eq
  constructor
  · rw [hsum, hz]
  · intro hx hy
    rw [hsum, hz, hx, hy]
    simp [List.sum_replicate]

/-- Witness for `counter_no_lost_updates`: two unit increments of one
request interleaved with one unit increment of another. -/
theorem counter_no_lost_updates_witness :
    runCounterOps 0 [1, 1, 1] = 0 + ([1, 1].sum + [1].sum) ∧
    ([1, 1] = List.replicate 2 1 → [1] = List.replicate 1 1 →
      runCounterOps 0 [1, 1, 1] = 0 + (2 + 1)) :=
  counter_no_lost_updates 0 [1, 1] [1] [1, 1, 1] 2 1
    (Interleaving.left (Interleaving.right (Interleaving.left Interleaving.nil)))

/-! ## Claims about the logging middleware -/

/-- C7: the completion log's severity is ERROR for status codes at least
500, WARNING for status codes in `[400, 500)`, and INFO otherwise. -/
theorem completion_log_severity (req : Request) (next : Handler) (freshId : String)
    (t0 t1 : Int) (resp : Response) (h : next req = Except.ok resp) :
    ∃ r : LogRec, ((loggingDispatch req next freshId t0 t1).1).getLast? = some r ∧
      r.message = "Request completed" ∧
      (500 ≤ resp.statusCode → r.level = Level.error) ∧
      (400 ≤ resp.statusCode → resp.statusCode < 500 → r.level = Level.warning) ∧
      (resp.statusCode < 400 → r.level = Level.info) := by
  refine ⟨{ level := logLevelFor resp.statusCode, message := "Request completed",
            traceCtx := some (chooseTraceId req.headers freshId),
            durationMs := some ((t1 - t0) * 1000),
            statusCode := some resp.statusCode }, ?_, rfl, ?_, ?_, ?_⟩
  · simp [loggingDispatch, h]
  · intro h5
    show logLevelFor resp.statusCode = Level.error
    unfold logLevelFor
    rw [if_pos (show resp.statusCode ≥ 500 by omega)]
  · intro h4 h5
    show logLevelFor resp.statusCode = Level.warning
    unfold logLevelFor
    rw [if_neg (show ¬ resp.statusCode ≥ 500 by omega),
        if_pos (show resp.statusCode ≥ 400 by omega)]
  · intro h4
    show logLevelFor resp.statusCode = Level.info
    unfold logLevelFor
    rw [if_neg (show ¬ resp.statusCode ≥ 500 by omega),
        if_neg (show ¬ resp.statusCode ≥ 400 by omega)]

/-- Witness for `completion_log_severity`: a handler answering 503. -/
theorem completion_log_severity_witness :
    ∃ r : LogRec,
      ((loggingDispatch
          { method := "GET", path := "/x", routeTemplate := "/x", headers := [] }
          (fun _ => Except.ok { statusCode := 503, headers := [] }) "fresh" 0 1).1).getLast? =
        some r ∧
      r.message = "Request completed" ∧
      (500 ≤ (503 : Nat) → r.level = Level.error) ∧
      (400 ≤ (503 : Nat) → (503 : Nat) < 500 → r.level = Level.warning) ∧
      ((503 : Nat) < 400 → r.level = Level.info) :=
  completion_log_severity
    { method := "GET", path := "/x", routeTemplate := "/x", headers := [] }
    (fun _ => Except.ok { statusCode := 503, headers := [] }) "fresh" 0 1
    { statusCode := 503, headers := [] } rfl

theorem chooseTraceId_of_inbound (h : Headers) (f v : String)
    (hv : hget h "x-trace-id" = some v) (hne : v ≠ "") :
    chooseTraceId h f = v := by
  simp [chooseTraceId, hv, hne]

theorem chooseTraceId_of_missing (h : Headers) (f : String)
    (hv : hget h "x-trace-id" = none ∨ hget h "x-trace-id" = some "") :
    chooseTraceId h f = f := by
  rcases hv with hv | hv <;> simp [chooseTraceId, hv]

theorem loggingDispatch_traceCtx (req : Request) (next : Handler) (freshId : String)
    (t0 t1 : Int) :
    (∀ r ∈ (loggingDispatch req next freshId t0 t1).1,
      r.traceCtx = some (chooseTraceId req.headers freshId)) ∧
    (∀ resp2, (loggingDispatch req next freshId t0 t1).2 = Except.ok resp2 →
      hget resp2.headers "x-trace-id" = some (chooseTraceId req.headers freshId)) := by
  cases hnext : next req with
  | error e =>
    constructor
    · intro r hr
      simp [loggingDispatch, hnext] at hr
      subst hr
      rfl
    · intro resp2 h2
      simp [loggingDispatch, hnext] at h2
  | ok resp =>
    constructor
    · intro r hr
      simp [loggingDispatch, hnext] at hr
      rcases hr with hr | hr <;> (subst hr; rfl)
    · intro resp2 h2
      simp [loggingDispatch, hnext] at h2
      rw [← h2]
      exact hget_hset_self resp.headers "x-trace-id" _

/-- C2: for a request carrying a non-empty inbound `X-Trace-ID` value `V`,
the middleware binds `V` unchanged, so every log record of the request
carries `V` and the response leaves with `X-Trace-ID: V`; without such a
header the freshly generated token (the model's `freshId`, standing for
`str(uuid.uuid4())`) is bound and appears in both places instead. -/
theorem trace_id_propagation (req : Request) (next : Handler) (freshId : String)
    (t0 t1 : Int) :
    (∀ v, hget req.headers "x-trace-id" = some v → v ≠ "" →
      (∀ r ∈ (loggingDispatch req next freshId t0 t1).1, r.traceCtx = some v) ∧
      (∀ resp2, (loggingDispatch req next freshId t0 t1).2 = Except.ok resp2 →
        hget resp2.headers "x-trace-id" = some v)) ∧
    ((hget req.headers "x-trace-id" = none ∨ hget req.headers "x-trace-id" = some "") →
      (∀ r ∈ (loggingDispatch req next freshId t0 t1).1, r.traceCtx = some freshId) ∧
      (∀ resp2, (loggingDispatch req next freshId t0 t1).2 = Except.ok resp2 →
        hget resp2.headers "x-trace-id" = some freshId)) := by
  have main := loggingDispatch_traceCtx req next freshId t0 t1
  constructor
  · intro v hv hne
    rw [chooseTraceId_of_inbound req.headers freshId v hv hne] at main
    exact main
  · intro hv
    rw [chooseTraceId_of_missing req.headers freshId hv] at main
    exact main

/-- Witness for `trace_id_propagation`: one request with inbound trace
header `abc123` and one without, each answered with status 200. -/
theorem trace_id_propagation_witness :
    (∀ r ∈ (loggingDispatch
        { method := "GET", path := "/a", routeTemplate := "/a",
          headers := [("x-trace-id", "abc123")] }
        (fun _ => Except.ok { statusCode := 200, headers := [] }) "fresh" 0 1).1,
      r.traceCtx = some "abc123") ∧
    (∀ r ∈ (loggingDispatch
        { method := "GET", path := "/a", routeTemplate := "/a", headers := [] }
        (fun _ => Except.ok { statusCode := 200, headers := [] }) "fresh" 0 1).1,
      r.traceCtx = some "fresh") := by
  constructor
  · exact ((trace_id_propagation
      { method := "GET", path := "/a", routeTemplate := "/a",
        headers := [("x-trace-id", "abc123")] }
      (fun _ => Except.ok { statusCode := 200, headers := [] }) "fresh" 0 1).1
      "abc123" (by rfl) (by decide)).1
  · exact ((trace_id_propagation
      { method := "GET", path := "/a", routeTemplate := "/a", headers := [] }
      (fun _ => Except.ok { statusCode := 200, headers := [] }) "fresh" 0 1).2
      (Or.inl rfl)).1

theorem mem_reqSizeObs_iff (req : Request) (next : Handler) (t0 t1 : Int)
    (m e s : String) (v : Int) :
    MEvent.reqSizeObs m e s v ∈ (metricsDispatch req next t0 t1).1 ↔
      m = req.method ∧ e = req.path ∧ s = SERVICE_NAME ∧
      contentLengthValue req.headers = some v ∧ 0 < v := by
  unfold metricsDispatch
  cases hcl : contentLengthValue req.headers with
  | none => simp
  | some rs =>
    cases hnext : next req with
    | error e2 =>
      by_cases hrs : rs > 0 <;> simp [hrs] <;> aesop
    | ok resp =>
      cases hcl2 : contentLengthValue resp.headers with
      | none => by_cases hrs : rs > 0 <;> simp [hrs] <;> aesop
      | some ws =>
        by_cases hrs : rs > 0 <;> by_cases hws : ws > 0 <;>
          simp [hrs, hws] <;> aesop <;> omega

theorem mem_respSizeObs_iff (req : Request) (next : Handler) (t0 t1 : Int)
    (m e : String) (c : Nat) (s : String) (v : Int) :
    MEvent.respSizeObs m e c s v ∈ (metricsDispatch req next t0 t1).1 ↔
      ∃ resp, next req = Except.ok resp ∧
        m = req.method ∧ e = req.path ∧ c = resp.statusCode ∧ s = SERVICE_NAME ∧
        (∃ rs, contentLengthValue req.headers = some rs) ∧
        contentLengthValue resp.headers = some v ∧ 0 < v := by
  unfold metricsDispatch
  cases hcl : contentLengthValue req.headers with
  | none => simp
  | some rs =>
    cases hnext : next req with
    | error e2 =>
      by_cases hrs : rs > 0 <;> simp [hrs] <;> aesop
    | ok resp =>
      cases hcl2 : contentLengthValue resp.headers with
      | none => by_cases hrs : rs > 0 <;> simp [hrs] <;> aesop
      | some ws =>
        by_cases hrs : rs > 0 <;> by_cases hws : ws > 0 <;>
          simp [hrs, hws] <;> aesop

/-- C10: the request-size histogram receives an observation iff the
request's content-length header parses to a strictly positive value, the
response-size histogram receives an observation iff the returned
response's content-length header parses to a strictly positive value (for
requests that reach the response-recording point), and a request without
a content-length header produces no request-size observation at all. -/
theorem size_observation_characterization (req : Request) (next : Handler) (t0 t1 : Int) :
    ((∃ m e s v, MEvent.reqSizeObs m e s v ∈ (metricsDispatch req next t0 t1).1) ↔
      (∃ str v, hget req.headers "content-length" = some str ∧
        pyInt str = some v ∧ 0 < v)) ∧
    (∀ m e c s v, MEvent.respSizeObs m e c s v ∈ (metricsDispatch req next t0 t1).1 →
      ∃ resp, next req = Except.ok resp ∧ ∃ str,
        hget resp.headers "content-length" = some str ∧ pyInt str = some v ∧ 0 < v) ∧
    (∀ resp, next req = Except.ok resp → contentLengthValue req.headers ≠ none →
      ∀ str v, hget resp.headers "content-length" = some str → pyInt str = some v →
        0 < v →
        MEvent.respSizeObs req.method req.path resp.statusCode SERVICE_NAME v ∈
          (metricsDispatch req next t0 t1).1) ∧
    (hget req.headers "content-length" = none →
      ∀ m e s v, MEvent.reqSizeObs m e s v ∉ (metricsDispatch req next t0 t1).1) := by
  refine ⟨⟨?_, ?_⟩, ?_, ?_, ?_⟩
  · rintro ⟨m, e, s, v, hm⟩
    rw [mem_reqSizeObs_iff] at hm
    obtain ⟨_, _, _, hcv, hv⟩ := hm
    cases hh : hget req.headers "content-length" with
    | none =>
      simp [contentLengthValue, hh] at hcv
      omega
    | some str =>
      simp [contentLengthValue, hh] at hcv
      exact ⟨str, v, rfl, hcv, hv⟩
  · rintro ⟨str, v, hh, hp, hv⟩
    refine ⟨req.method, req.path, SERVICE_NAME, v, ?_⟩
    rw [mem_reqSizeObs_iff]
    exact ⟨rfl, rfl, rfl, by simp [contentLengthValue, hh, hp], hv⟩
  · intro m e c s v hm
    rw [mem_respSizeObs_iff] at hm
    obtain ⟨resp, hnext, _, _, _, _, _, hcv, hv⟩ := hm
    cases hh : hget resp.headers "content-length" with
    | none =>
      simp [contentLengthValue, hh] at hcv
      omega
    | some str =>
      simp [contentLengthValue, hh] at hcv
      exact ⟨resp, hnext, str, hh, hcv, hv⟩
  · intro resp hnext hne str v hh hp hv
    rw [mem_respSizeObs_iff]
    obtain ⟨rs, hrs⟩ := Option.ne_none_iff_exists.mp hne
    exact ⟨resp, hnext, rfl, rfl, rfl, rfl, ⟨rs, hrs.symm⟩,
      by simp [contentLengthValue, hh, hp], hv⟩
  · intro hh m e s v hm
    rw [mem_reqSizeObs_iff] at hm
    obtain ⟨_, _, _, hcv, hv⟩ := hm
    simp [contentLengthValue, hh] at hcv
    omega

/-- Witness for `size_observation_characterization`: a request with
content-length 5 answered 200 with content-length 7 records a
response-size observation of 7. -/
theorem size_observation_characterization_witness :
    MEvent.respSizeObs "GET" "/w" 200 SERVICE_NAME 7 ∈
      (metricsDispatch
        { method := "GET", path := "/w", routeTemplate := "/w",
          headers := [("content-length", "5")] }
        (fun _ => Except.ok { statusCode := 200, headers := [("content-length", "7")] })
        0 1).1 := by
  have h := size_observation_characterization
    { method := "GET", path := "/w", routeTemplate := "/w",
      headers := [("content-length", "5")] }
    (fun _ => Except.ok { statusCode := 200, headers := [("content-length", "7")] }) 0 1
  exact h.2.2.1 { statusCode := 200, headers := [("content-length", "7")] }
    rfl (by decide) "7" 7 rfl (by decide) (by decide)

theorem metricsDispatch_head (req : Request) (next : Handler) (t0 t1 : Int) :
    ((metricsDispatch req next t0 t1).1).head? = some (MEvent.gaugeInc SERVICE_NAME) := by
  cases hcl : contentLengthValue req.headers with
  | none => simp [metricsDispatch, hcl]
  | some rs =>
    cases hnext : next req with
    | error e2 =>
      by_cases hrs : rs > 0 <;> simp [metricsDispatch, hcl, hnext, hrs]
    | ok resp =>
      cases hcl2 : contentLengthValue resp.headers with
      | none =>
        by_cases hrs : rs > 0 <;> simp [metricsDispatch, hcl, hnext, hcl2, hrs]
      | some ws =>
        by_cases hrs : rs > 0 <;> by_cases hws : ws > 0 <;>
          simp [metricsDispatch, hcl, hnext, hcl2, hrs, hws]

theorem metricsDispatch_no_gaugeInc_in_tail (req : Request) (next : Handler)
    (t0 t1 : Int) (s : String) :
    MEvent.gaugeInc s ∉ ((metricsDispatch req next t0 t1).1).tail := by
  cases hcl : contentLengthValue req.headers with
  | none => simp [metricsDispatch, hcl]
  | some rs =>
    cases hnext : next req with
    | error e2 =>
      by_cases hrs : rs > 0 <;> simp [metricsDispatch, hcl, hnext, hrs]
    | ok resp =>
      cases hcl2 : contentLengthValue resp.headers with
      | none =>
        by_cases hrs : rs > 0 <;> simp [metricsDispatch, hcl, hnext, hcl2, hrs]
      | some ws =>
        by_cases hrs : rs > 0 <;> by_cases hws : ws > 0 <;>
          simp [metricsDispatch, hcl, hnext, hcl2, hrs, hws]

theorem metricsDispatch_gaugeDec_last (req : Request) (next : Handler)
    (t0 t1 : Int) (s : String)
    (h : MEvent.gaugeDec s ∈ (metricsDispatch req next t0 t1).1) :
    ((metricsDispatch req next t0 t1).1).getLast? = some (MEvent.gaugeDec s) := by
  cases hcl : contentLengthValue req.headers with
  | none => simp [metricsDispatch, hcl] at h
  | some rs =>
    cases hnext : next req with
    | error e2 =>
      by_cases hrs : rs > 0 <;> simp [metricsDispatch, hcl, hnext, hrs] at h
    | ok resp =>
      cases hcl2 : contentLengthValue resp.headers with
      | none =>
        by_cases hrs : rs > 0 <;> simp [metricsDispatch, hcl, hnext, hcl2, hrs] at h
      | some ws =>
        by_cases hrs : rs > 0 <;> by_cases hws : ws > 0 <;>
          simp [metricsDispatch, hcl, hnext, hcl2, hrs, hws] at h <;>
          simp [metricsDispatch, hcl, hnext, hcl2, hrs, hws, h]

theorem metricsDispatch_duration_eq (req : Request) (next : Handler)
    (t0 t1 : Int) (m e : String) (c : Nat) (s : String) (d : Int)
    (h : MEvent.durationObs m e c s d ∈ (metricsDispatch req next t0 t1).1) :
    d = t1 - t0 := by
  cases hcl : contentLengthValue req.headers with
  | none => simp [metricsDispatch, hcl] at h
  | some rs =>
    cases hnext : next req with
    | error e2 =>
      by_cases hrs : rs > 0 <;> simp [metricsDispatch, hcl, hnext, hrs] at h
    | ok resp =>
      cases hcl2 : contentLengthValue resp.headers with
      | none =>
        by_cases hrs : rs > 0 <;> simp [metricsDispatch, hcl, hnext, hcl2, hrs] at h
      | some ws =>
        by_cases hrs : rs > 0 <;> by_cases hws : ws > 0 <;>
          simp [metricsDispatch, hcl, hnext, hcl2, hrs, hws] at h <;> aesop

/-- C9: within one request the incoming log is emitted before the
completion log (the incoming record heads the record list and any
completion record sits strictly after it), the active-requests gauge
increment is the first metric operation and any decrement the last (so
the increment precedes it), and every recorded duration is computed from
the start timestamp `t0` captured before the downstream handler is
invoked: `t1 - t0` in the duration histogram and `(t1 - t0) * 1000`
milliseconds in the completion log. -/
theorem request_event_ordering (req : Request) (next : Handler) (freshId : String)
    (t0 t1 : Int) :
    (((loggingDispatch req next freshId t0 t1).1).head? =
      some { level := Level.info, message := "Incoming request",
             traceCtx := some (chooseTraceId req.headers freshId) }) ∧
    (∀ r ∈ ((loggingDispatch req next freshId t0 t1).1).tail,
      r.message = "Request completed" ∧ r.durationMs = some ((t1 - t0) * 1000)) ∧
    ((metricsDispatch req next t0 t1).1).head? = some (MEvent.gaugeInc SERVICE_NAME) ∧
    (∀ s, MEvent.gaugeInc s ∉ ((metricsDispatch req next t0 t1).1).tail) ∧
    (∀ s, MEvent.gaugeDec s ∈ (metricsDispatch req next t0 t1).1 →
      ((metricsDispatch req next t0 t1).1).getLast? = some (MEvent.gaugeDec s)) ∧
    (∀ m e c s d, MEvent.durationObs m e c s d ∈ (metricsDispatch req next t0 t1).1 →
      d = t1 - t0) := by
  refine ⟨?_, ?_, metricsDispatch_head req next t0 t1,
    fun s => metricsDispatch_no_gaugeInc_in_tail req next t0 t1 s,
    fun s h => metricsDispatch_gaugeDec_last req next t0 t1 s h,
    fun m e c s d h => metricsDispatch_duration_eq req next t0 t1 m e c s d h⟩
  · cases hnext : next req with
    | error e => simp [loggingDispatch, hnext]
    | ok resp => simp [loggingDispatch, hnext]
  · intro r hr
    cases hnext : next req with
    | error e => simp [loggingDispatch, hnext] at hr
    | ok resp =>
      simp [loggingDispatch, hnext] at hr
      subst hr
      exact ⟨rfl, rfl⟩

/-- Witness for `request_event_ordering`: a plain `GET` request answered
200, entered at time 3 and finished at time 10. -/
theorem request_event_ordering_witness :
    ((metricsDispatch
        { method := "GET", path := "/w9", routeTemplate := "/w9", headers := [] }
        (fun _ => Except.ok { statusCode := 200, headers := [] }) 3 10).1).getLast? =
      some (MEvent.gaugeDec SERVICE_NAME) ∧ (7 : Int) = 10 - 3 := by
  have h := request_event_ordering
    { method := "GET", path := "/w9", routeTemplate := "/w9", headers := [] }
    (fun _ => Except.ok { statusCode := 200, headers := [] }) "f" 3 10
  constructor
  · exact h.2.2.2.2.1 SERVICE_NAME (by decide)
  · exact h.2.2.2.2.2 "GET" "/w9" 200 SERVICE_NAME 7 (by decide)

/-- C6 (counterexample to the claim as stated): a wrapped operation named
`database_query` that raises `TimeoutError` gets the debug/error logs and
the re-raise from `log_execution` and from the logging `Timer`, but no
metric observation whatsoever is recorded by either helper — contradicting
the claim that a duration/outcome-error metric observation is recorded. -/
theorem helpers_record_no_metric_on_failure :
    (logExecution "database_query"
      (fun _ => (Except.error ⟨"TimeoutError", "query timed out"⟩ : Except PyExn Unit))
      none 0 1).2.1 = [] ∧
    (timerScope "database_query"
      (fun _ => (Except.error ⟨"TimeoutError", "query timed out"⟩ : Except PyExn Unit))
      none 0 1).2.1 = [] ∧
    (fun _ => (Except.error ⟨"TimeoutError", "query timed out"⟩ : Except PyExn Unit)) () =
      Except.error ⟨"TimeoutError", "query timed out"⟩ := by
  exact ⟨rfl, rfl, rfl⟩

/-- C6 (amended): when the wrapped work raises, `log_execution` and the
logging `Timer` emit the debug "Starting" record first, emit an error
"Failed" record carrying the exception's type, its message, the elapsed
duration and the status field `error`, re-raise the original exception
unchanged — and record no metric observation. -/
theorem helpers_failure_logging {α : Type} (operation : String)
    (work : Unit → Except PyExn α) (ctx : Option String) (t0 t1 : Int) (e : PyExn)
    (h : work () = Except.error e) :
    ((logExecution operation work ctx t0 t1).1.head? =
      some { level := Level.debug, message := "Starting " ++ operation, traceCtx := ctx } ∧
     (∃ r ∈ (logExecution operation work ctx t0 t1).1,
        r.level = Level.error ∧ r.message = "Failed " ++ operation ∧
        r.errType = some e.ty ∧ r.errMsg = some e.msg ∧
        r.durationMs = some ((t1 - t0) * 1000) ∧ r.status = some "error") ∧
     (logExecution operation work ctx t0 t1).2.1 = [] ∧
     (logExecution operation work ctx t0 t1).2.2 = Except.error e) ∧
    ((timerScope operation work ctx t0 t1).1.head? =
      some { level := Level.debug, message := "Starting " ++ operation, traceCtx := ctx } ∧
     (∃ r ∈ (timerScope operation work ctx t0 t1).1,
        r.level = Level.error ∧ r.message = "Failed " ++ operation ∧
        r.errType = some e.ty ∧ r.errMsg = some e.msg ∧
        r.durationMs = some ((t1 - t0) * 1000) ∧ r.status = some "error") ∧
     (timerScope operation work ctx t0 t1).2.1 = [] ∧
     (timerScope operation work ctx t0 t1).2.2 = Except.error e) := by
  refine ⟨⟨?_, ?_, ?_, ?_⟩, ?_, ?_, ?_, ?_⟩ <;>
    simp [logExecution, timerScope, h]

/-- Witness for `helpers_failure_logging`: `database_query` raising
`TimeoutError` after one time unit. -/
theorem helpers_failure_logging_witness :
    (logExecution "database_query"
      (fun _ => (Except.error ⟨"TimeoutError", "boom"⟩ : Except PyExn Nat))
      (some "tid") 0 1).2.2 = Except.error ⟨"TimeoutError", "boom"⟩ ∧
    ∃ r ∈ (logExecution "database_query"
      (fun _ => (Except.error ⟨"TimeoutError", "boom"⟩ : Except PyExn Nat))
      (some "tid") 0 1).1,
      r.level = Level.error ∧ r.message = "Failed database_query" ∧
      r.errType = some "TimeoutError" ∧ r.errMsg = some "boom" ∧
      r.durationMs = some ((1 - 0) * 1000) ∧ r.status = some "error" := by
  have h := helpers_failure_logging "database_query"
    (fun _ => (Except.error ⟨"TimeoutError", "boom"⟩ : Except PyExn Nat))
    (some "tid") 0 1 ⟨"TimeoutError", "boom"⟩ rfl
  exact ⟨h.1.2.2.2, h.1.2.1⟩

theorem hget_eq_none_iff (l : List (String × String)) (k : String) :
    hget l k = none ↔ ∀ p ∈ l, p.1 ≠ k := by
  induction l with
  | nil => simp [hget]
  | cons p rest ih =>
    by_cases hp : p.1 = k
    · simp [hget, hp]
    · simp [hget, hp, ih]

theorem hget_fold_untouched :
    ∀ (fields : List (String × String)) (acc : List (String × String)) (k : String),
    (∀ p ∈ fields, requiredFields.contains p.1 = false → p.1 ≠ k) →
    hget (List.foldl
      (fun acc p => if requiredFields.contains p.1 then acc else upsert acc p.1 p.2)
      acc fields) k = hget acc k := by
  intro fields
  induction fields with
  | nil => intro acc k _; rfl
  | cons p rest ih =>
    intro acc k h
    simp only [List.foldl_cons]
    by_cases hp : requiredFields.contains p.1 = true
    · rw [if_pos hp]
      exact ih _ _ (fun q hq hr => h q (by simp [hq]) hr)
    · rw [if_neg hp]
      rw [ih _ _ (fun q hq hr => h q (by simp [hq]) hr)]
      exact hget_upsert_ne acc p.1 p.2 k
        (Ne.symm (h p (by simp) (by simpa using hp)))

theorem hasKey_fold_mono :
    ∀ (fields : List (String × String)) (acc : List (String × String)) (k : String),
    hasKey acc k = true →
    hasKey (List.foldl
      (fun acc p => if requiredFields.contains p.1 then acc else upsert acc p.1 p.2)
      acc fields) k = true := by
  intro fields
  induction fields with
  | nil => intro acc k h; exact h
  | cons p rest ih =>
    intro acc k h
    simp only [List.foldl_cons]
    by_cases hp : requiredFields.contains p.1 = true
    · rw [if_pos hp]; exact ih _ _ h
    · rw [if_neg hp]; exact ih _ _ (hasKey_upsert_of_hasKey _ _ _ _ h)

theorem hasKey_fold_of_mem :
    ∀ (fields : List (String × String)) (acc : List (String × String)) (k v : String),
    (k, v) ∈ fields → requiredFields.contains k = false →
    hasKey (List.foldl
      (fun acc p => if requiredFields.contains p.1 then acc else upsert acc p.1 p.2)
      acc fields) k = true := by
  intro fields
  induction fields with
  | nil => intro acc k v hm _; simp at hm
  | cons p rest ih =>
    intro acc k v hm hk
    simp only [List.foldl_cons]
    rcases List.mem_cons.mp hm with he | hm2
    · cases he.symm
      rw [if_neg (by rw [hk]; simp)]
      exact hasKey_fold_mono rest _ k (by simp [hasKey, hget_upsert_self])
    · exact ih _ _ _ hm2 hk

theorem hget_baseAddFields_message (rec : RecordInfo)
    (fields : List (String × String)) :
    hget (baseAddFields rec fields) "message" = some rec.message := by
  simp only [baseAddFields]
  rw [hget_fold_untouched]
  · simp [hget]
  · intro p _ hr he
    rw [he] at hr
    simp [requiredFields] at hr

theorem hget_baseAddFields_trace (rec : RecordInfo)
    (fields : List (String × String)) (hne : hget fields "trace_id" = none) :
    hget (baseAddFields rec fields) "trace_id" = none := by
  simp only [baseAddFields]
  rw [hget_fold_untouched]
  · simp [hget]
  · intro p hp _
    exact (hget_eq_none_iff fields "trace_id").mp hne p hp

theorem hasKey_addFields_of_base (rec : RecordInfo) (ctx : Option String)
    (fields : List (String × String)) (k : String)
    (h : hasKey (baseAddFields rec fields) k = true) :
    hasKey (addFields rec ctx fields) k = true := by
  rcases ctx with _ | t
  · simp only [addFields]
    repeat (first | exact h | apply hasKey_upsert_of_hasKey)
  · by_cases ht : t = ""
    · subst ht
      simp only [addFields, if_pos rfl]
      repeat (first | exact h | apply hasKey_upsert_of_hasKey)
    · simp only [addFields, if_neg ht]
      repeat (first | exact h | apply hasKey_upsert_of_hasKey)

/-- C8 (counterexample to the claim as stated): `set_trace_id("")` binds
the empty string, so a trace token is bound at emission time
(`trace_id_var.get()` returns `""`, not `None`), yet the formatter's
truthiness check `if trace_id:` skips the `trace_id` key — the record does
not contain the key although a token is bound. -/
theorem trace_id_key_missing_for_bound_empty_token :
    (some "" ≠ (none : Option String)) ∧
    hasKey (addFields
      { levelname := "INFO", name := "pluggedin-service", filename := "app.py",
        lineno := 10, funcName := "main", message := "hello",
        timestamp := "2026-10-12T00:00:00.000Z" }
      (some "") []) "trace_id" = false := by
  exact ⟨by simp, by rfl⟩

/-- C8 (amended): in production mode every emitted record contains the
keys timestamp, level, service, environment, version, logger, file, line,
function and message; it contains `trace_id` (holding the bound token)
whenever a non-empty token is bound, and when no token or the empty token
is bound the key appears only if caller-supplied; caller fields merge in
without removing the reserved keys. -/
theorem production_record_schema (rec : RecordInfo) (ctx : Option String)
    (fields : List (String × String)) :
    (∀ k ∈ reservedKeys, hasKey (addFields rec ctx fields) k = true) ∧
    (∀ t, ctx = some t → t ≠ "" →
      hget (addFields rec ctx fields) "trace_id" = some t) ∧
    ((ctx = none ∨ ctx = some "") → hget fields "trace_id" = none →
      hasKey (addFields rec ctx fields) "trace_id" = false) ∧
    (∀ k v, (k, v) ∈ fields → requiredFields.contains k = false →
      hasKey (addFields rec ctx fields) k = true) := by
  refine ⟨?_, ?_, ?_, ?_⟩
  · intro k hk
    simp only [reservedKeys, List.mem_cons, List.not_mem_nil, or_false] at hk
    have base : ∀ k2, hget (baseAddFields rec fields) k2 = some rec.message →
        hasKey (addFields rec ctx fields) k2 = true := fun k2 h2 =>
      hasKey_addFields_of_base rec ctx fields k2 (by simp [hasKey, h2])
    rcases hk with rfl | rfl | rfl | rfl | rfl | rfl | rfl | rfl | rfl | rfl
    all_goals
      first
      | exact base "message" (hget_baseAddFields_message rec fields)
      | (rcases ctx with _ | t
         · simp [addFields, hasKey, hget_upsert_self, hget_upsert_ne]
         · by_cases ht : t = "" <;>
             simp [addFields, ht, hasKey, hget_upsert_self, hget_upsert_ne])
  · intro t hct ht
    subst hct
    simp only [addFields, if_neg ht]
    simp [hget_upsert_self, hget_upsert_ne]
  · intro hct hfields
    have hbase := hget_baseAddFields_trace rec fields hfields
    rcases hct with rfl | rfl
    · simp [addFields, hasKey, hget_upsert_ne, hbase]
    · simp [addFields, hasKey, hget_upsert_ne, hbase]
  · intro k v hm hk
    apply hasKey_addFields_of_base
    simp only [baseAddFields]
    exact hasKey_fold_of_mem fields _ k v hm hk

/-- Witness for `production_record_schema`: a record formatted with bound
token `tok` and one caller field `user_id`. -/
theorem production_record_schema_witness :
    hasKey (addFields
      { levelname := "INFO", name := "pluggedin-service", filename := "app.py",
        lineno := 10, funcName := "main", message := "hello",
        timestamp := "2026-10-12T00:00:00.000Z" }
      (some "tok") [("user_id", "42")]) "timestamp" = true ∧
    hget (addFields
      { levelname := "INFO", name := "pluggedin-service", filename := "app.py",
        lineno := 10, funcName := "main", message := "hello",
        timestamp := "2026-10-12T00:00:00.000Z" }
      (some "tok") [("user_id", "42")]) "trace_id" = some "tok" ∧
    hasKey (addFields
      { levelname := "INFO", name := "pluggedin-service", filename := "app.py",
        lineno := 10, funcName := "main", message := "hello",
        timestamp := "2026-10-12T00:00:00.000Z" }
      (some "tok") [("user_id", "42")]) "user_id" = true := by
  have h := production_record_schema
    { levelname := "INFO", name := "pluggedin-service", filename := "app.py",
      lineno := 10, funcName := "main", message := "hello",
      timestamp := "2026-10-12T00:00:00.000Z" }
    (some "tok") [("user_id", "42")]
  exact ⟨h.1 "timestamp" (by simp [reservedKeys]),
    h.2.1 "tok" rfl (by simp),
    h.2.2.2 "user_id" "42" (by simp) (by rfl)⟩

end Observability
